import Mathlib

/-!
Shallow embedding of the sensing-to-actuation control loop of the
RobotMazePathFinder firmware.

Sources embedded here:
* `src/Maze/src/Analog_Distance_Sensors.c` — `Analog_Distance_Sensor_Calibrate`
  (with the constants `Ax`, `Bx`, `Cx`, `ANALOG_DISTANCE_SENSOR_MAX` from
  `src/Maze_Program/inc/Analog_Distance_Sensors.h`).
* `src/Maze_Program/main.c` — `Controller_3` (set-point selection, proportional
  error, duty-cycle derivation, clamping, and the three-way motor decision).
* `LPF.c` — the three-channel moving-average filter (`LPF_Init`/`LPF_Calc`,
  `LPF_Init2`/`LPF_Calc2`, `LPF_Init3`/`LPF_Calc3`, shared global `Size`)
  and the Newton integer square root `isqrt`.

Machine integers are modelled as `Nat`/`Int` with explicit reductions:
`uint32_t` arithmetic is taken modulo `U32 = 2^32`, the implicit conversion of
an `int` result to the `uint16_t` duty-cycle globals is taken modulo `2^16`
(`Int.emod`, then `toNat`), and C's truncating signed division is `Int.tdiv`.
A C division whose divisor can be zero is modelled as an `Option`.
-/

/-- 2^32, the modulus of `uint32_t` arithmetic. -/
def U32 : ℕ := 4294967296

/-- 2^16, the modulus of `uint16_t` conversion. -/
def U16 : ℤ := 65536

/-! ### Distance calibration (`Analog_Distance_Sensors.c`) -/

/-- Calibration constant `Ax` from `Analog_Distance_Sensors.h`. -/
def Ax : ℤ := 1195159

/-- Calibration constant `Bx` from `Analog_Distance_Sensors.h`. -/
def Bx : ℤ := -1058

/-- Calibration constant `Cx` from `Analog_Distance_Sensors.h`. -/
def Cx : ℤ := 40

/-- Threshold `ANALOG_DISTANCE_SENSOR_MAX` from `Analog_Distance_Sensors.h`. -/
def ANALOG_DISTANCE_SENSOR_MAX : ℤ := 2552

/-- `Analog_Distance_Sensor_Calibrate` from `Analog_Distance_Sensors.c`:
below the threshold return the fixed 800 mm sentinel, otherwise the
inverse-rational calibration formula with C's truncating division. -/
def Analog_Distance_Sensor_Calibrate (filtered_distance : ℤ) : ℤ :=
  if filtered_distance < ANALOG_DISTANCE_SENSOR_MAX then 800
  else Int.tdiv Ax (filtered_distance + Bx) + Cx

/-! ### Wall-following controller (`Controller_3` in `Maze_Program/main.c`) -/

/-- `TOO_CLOSE_DISTANCE` from `main.c`. -/
def TOO_CLOSE_DISTANCE : ℤ := 200

/-- `DESIRED_DISTANCE` from `main.c`. -/
def DESIRED_DISTANCE : ℤ := 250

/-- `PWM_NOMINAL` from `main.c`. -/
def PWM_NOMINAL : ℤ := 2500

/-- `PWM_SWING` from `main.c`. -/
def PWM_SWING : ℤ := 1000

/-- `PWM_MIN = PWM_NOMINAL - PWM_SWING`. -/
def PWM_MIN : ℕ := 1500

/-- `PWM_MAX = PWM_NOMINAL + PWM_SWING`. -/
def PWM_MAX : ℕ := 3500

/-- The motor actuation calls issued by the controller: `Motor_Forward`,
`Motor_Backward` (each with a `(left_duty, right_duty)` pair of `uint16_t`
duty cycles) and `Motor_Stop`. -/
inductive MotorCmd : Type where
  | forward (left_duty right_duty : ℕ)
  | backward (left_duty right_duty : ℕ)
  | stop
  deriving DecidableEq, Repr

/-- The state written by one `Controller_3` tick: the globals `Set_Point`,
`Error`, `Duty_Cycle_Left`, `Duty_Cycle_Right`, and the motor call made. -/
structure ControllerTick : Type where
  Set_Point : ℤ
  Error : ℤ
  Duty_Cycle_Left : ℕ
  Duty_Cycle_Right : ℕ
  cmd : MotorCmd
  deriving DecidableEq, Repr

/-- Conversion of an `int` expression to a `uint16_t` variable: value modulo
2^16, as a natural number in `[0, 65535]`. -/
def toUInt16 (v : ℤ) : ℕ := (v % U16).toNat

/-- The two sequential range checks `if (d < PWM_MIN) d = PWM_MIN;`
`if (d > PWM_MAX) d = PWM_MAX;` applied to a `uint16_t` duty cycle. -/
def clampDuty (d : ℕ) : ℕ :=
  if d < PWM_MIN then PWM_MIN else if d > PWM_MAX then PWM_MAX else d

/-- `Controller_3` from `main.c`, as a function of the three converted
distances (`int32_t` globals) and the gain `Kp`.  It computes `Set_Point`,
`Error`, the two clamped duty cycles, and the motor command chosen by the
three-way policy on the center distance. -/
def Controller_3 (left center right Kp : ℤ) : ControllerTick :=
  let sp : ℤ :=
    if left > DESIRED_DISTANCE ∧ right > DESIRED_DISTANCE then
      Int.tdiv (left + right) 2
    else DESIRED_DISTANCE
  let err : ℤ := if left < right then left - sp else sp - right
  let dutyRight : ℕ := clampDuty (toUInt16 (PWM_NOMINAL - Kp * err))
  let dutyLeft : ℕ := clampDuty (toUInt16 (PWM_NOMINAL + Kp * err))
  let cmd : MotorCmd :=
    if center ≥ DESIRED_DISTANCE ∧ center < 800 then
      .forward dutyLeft dutyRight
    else if center < DESIRED_DISTANCE - 50 then
      .backward dutyLeft dutyRight
    else .stop
  ⟨sp, err, dutyLeft, dutyRight, cmd⟩

/-- Modelled from the words of claim C2 (the spec's actuation policy):
forward when the center distance is strictly greater than the desired
distance and below 800, backward when below desired minus margin,
otherwise stop.  Used only to compare the spec's policy with the code's. -/
def claimC2Policy (center : ℤ) (left_duty right_duty : ℕ) : MotorCmd :=
  if center > DESIRED_DISTANCE ∧ center < 800 then
    .forward left_duty right_duty
  else if center < DESIRED_DISTANCE - 50 then
    .backward left_duty right_duty
  else .stop

/-! ### Three-channel low-pass filter (`LPF.c`) -/

/-- The module-level state of `LPF.c`: the shared depth `Size`, and per
channel the ring buffer, the index/pointer of the oldest slot, and the
running sum.  Channel 1 uses `x`/`I1`/`LPFSum`; channels 2 and 3 use the
two-copy buffers `x2`/`Pt2`/`LPFSum2` and `x3`/`Pt3`/`LPFSum3`, with the
pointers modelled as indices into their buffers. -/
structure LPFState : Type where
  Size : ℕ
  x : ℕ → ℕ
  I1 : ℕ
  LPFSum : ℕ
  x2 : ℕ → ℕ
  Pt2 : ℕ
  LPFSum2 : ℕ
  x3 : ℕ → ℕ
  Pt3 : ℕ
  LPFSum3 : ℕ

/-- The zero-initialized C globals of `LPF.c`. -/
def LPF_initialState : LPFState :=
  ⟨0, fun _ => 0, 0, 0, fun _ => 0, 0, 0, fun _ => 0, 0, 0⟩

/-- `LPF_Init` from `LPF.c`: clamp the requested size at 1024, set the shared
`Size`, set `I1 = Size-1`, prime `LPFSum = Size*initial` (`uint32_t`
arithmetic), and fill `x[0..Size)` with the initial value. -/
def LPF_Init (initial size : ℕ) (s : LPFState) : LPFState :=
  let initial := initial % U32
  let sz := if size > 1024 then 1024 else size
  { s with
    Size := sz
    I1 := sz - 1
    LPFSum := sz * initial % U32
    x := fun i => if i < sz then initial else s.x i }

/-- `LPF_Calc` from `LPF.c`: decrement-and-wrap `I1`, subtract the evicted
slot from the running sum and add the new sample (`uint32_t` arithmetic),
store the new sample, and return `LPFSum / Size`. -/
def LPF_Calc (newdata : ℕ) (s : LPFState) : LPFState × ℕ :=
  let newdata := newdata % U32
  let i := if s.I1 = 0 then s.Size - 1 else s.I1 - 1
  let sum := (s.LPFSum + newdata + (U32 - s.x i)) % U32
  ({ s with I1 := i, LPFSum := sum, x := Function.update s.x i newdata },
   sum / s.Size)

/-- `LPF_Init2` from `LPF.c`: clamp the requested size at 512, set the SAME
shared `Size` global, reset `Pt2` to the start of `x2`, prime `LPFSum2`,
and fill both copies `x2[0..2*Size)`. -/
def LPF_Init2 (initial size : ℕ) (s : LPFState) : LPFState :=
  let initial := initial % U32
  let sz := if size > 512 then 512 else size
  { s with
    Size := sz
    Pt2 := 0
    LPFSum2 := sz * initial % U32
    x2 := fun i => if i < 2 * sz then initial else s.x2 i }

/-- `LPF_Calc2` from `LPF.c`: decrement-and-wrap `Pt2`, update `LPFSum2`,
write the new sample to both copies (`*Pt2` and `*(Pt2+Size)`), and return
`LPFSum2 / Size`. -/
def LPF_Calc2 (newdata : ℕ) (s : LPFState) : LPFState × ℕ :=
  let newdata := newdata % U32
  let p := if s.Pt2 = 0 then s.Size - 1 else s.Pt2 - 1
  let sum := (s.LPFSum2 + newdata + (U32 - s.x2 p)) % U32
  ({ s with
      Pt2 := p
      LPFSum2 := sum
      x2 := Function.update (Function.update s.x2 (p + s.Size) newdata) p newdata },
   sum / s.Size)

/-- `LPF_Init3` from `LPF.c`: the third channel's init; like `LPF_Init2` it
clamps at 512 and writes the shared `Size`. -/
def LPF_Init3 (initial size : ℕ) (s : LPFState) : LPFState :=
  let initial := initial % U32
  let sz := if size > 512 then 512 else size
  { s with
    Size := sz
    Pt3 := 0
    LPFSum3 := sz * initial % U32
    x3 := fun i => if i < 2 * sz then initial else s.x3 i }

/-- `LPF_Calc3` from `LPF.c`: the third channel's update. -/
def LPF_Calc3 (newdata : ℕ) (s : LPFState) : LPFState × ℕ :=
  let newdata := newdata % U32
  let p := if s.Pt3 = 0 then s.Size - 1 else s.Pt3 - 1
  let sum := (s.LPFSum3 + newdata + (U32 - s.x3 p)) % U32
  ({ s with
      Pt3 := p
      LPFSum3 := sum
      x3 := Function.update (Function.update s.x3 (p + s.Size) newdata) p newdata },
   sum / s.Size)

/-- Run `LPF_Calc` `n` times on the same new sample, collecting the state
and the list of returned filter outputs in call order. -/
def LPF_Calc_run : ℕ → ℕ → LPFState → LPFState × List ℕ
  | 0, _, s => (s, [])
  | n + 1, v, s =>
    let step := LPF_Calc v s
    let rest := LPF_Calc_run n v step.1
    (rest.1, step.2 :: rest.2)

/-- The sum of the `Size` samples currently stored in channel 1's window. -/
def windowSum (s : LPFState) : ℕ := ∑ i ∈ Finset.range s.Size, s.x i

/-! ### Newton integer square root (`isqrt` in `LPF.c`) -/

/-- One body of the `isqrt` loop, `t = ((t*t+s)/t)/2`, in `uint32_t`
arithmetic; `none` models the division by zero (undefined behavior in C)
when `t = 0`. -/
def isqrt_step (s t : ℕ) : Option ℕ :=
  if t = 0 then none else some ((t * t + s) % U32 / t / 2)

/-- The `for(n = 16; n; --n)` loop of `isqrt`, running a given number of
iterations. -/
def isqrt_loop : ℕ → ℕ → ℕ → Option ℕ
  | 0, _, t => some t
  | n + 1, s, t =>
    match isqrt_step s t with
    | none => none
    | some t1 => isqrt_loop n s t1

/-- `isqrt` from `LPF.c`: initial guess `s/10 + 1`, then 16 iterations of
`t = ((t*t+s)/t)/2` in `uint32_t` arithmetic. -/
def isqrt (s : ℕ) : Option ℕ := isqrt_loop 16 s (s / 10 + 1)

/-- The exact Babylonian step `(t + s/t)/2`; on the overflow-free domain the
`isqrt` loop body computes exactly this. -/
def bab (s t : ℕ) : ℕ := (t + s / t) / 2

/-! ### Helper lemmas for the controller and calibration -/

lemma clampDuty_bounds (d : ℕ) : PWM_MIN ≤ clampDuty d ∧ clampDuty d ≤ PWM_MAX := by
  unfold clampDuty PWM_MIN PWM_MAX
  split_ifs <;> omega

lemma Controller_3_Duty_Cycle_Left_eq (left center right Kp : ℤ) :
    (Controller_3 left center right Kp).Duty_Cycle_Left =
      clampDuty (toUInt16 (PWM_NOMINAL + Kp * (Controller_3 left center right Kp).Error)) := by
  unfold Controller_3
  split_ifs <;> rfl

lemma Controller_3_Duty_Cycle_Right_eq (left center right Kp : ℤ) :
    (Controller_3 left center right Kp).Duty_Cycle_Right =
      clampDuty (toUInt16 (PWM_NOMINAL - Kp * (Controller_3 left center right Kp).Error)) := by
  unfold Controller_3
  split_ifs <;> rfl

lemma Controller_3_cmd_eq (left center right Kp : ℤ) :
    (Controller_3 left center right Kp).cmd =
      (if center ≥ DESIRED_DISTANCE ∧ center < 800 then
        MotorCmd.forward (Controller_3 left center right Kp).Duty_Cycle_Left
          (Controller_3 left center right Kp).Duty_Cycle_Right
      else if center < DESIRED_DISTANCE - 50 then
        MotorCmd.backward (Controller_3 left center right Kp).Duty_Cycle_Left
          (Controller_3 left center right Kp).Duty_Cycle_Right
      else MotorCmd.stop) := by
  unfold Controller_3
  split_ifs <;> rfl

lemma Controller_3_Set_Point_eq (left center right Kp : ℤ) :
    (Controller_3 left center right Kp).Set_Point =
      (if left > DESIRED_DISTANCE ∧ right > DESIRED_DISTANCE then
        Int.tdiv (left + right) 2 else DESIRED_DISTANCE) := by
  unfold Controller_3
  split_ifs <;> rfl

lemma Controller_3_Error_eq (left center right Kp : ℤ) :
    (Controller_3 left center right Kp).Error =
      (if left < right then left - (Controller_3 left center right Kp).Set_Point
       else (Controller_3 left center right Kp).Set_Point - right) := by
  unfold Controller_3
  split_ifs <;> rfl

/-! ### C1: duty cycles are always clamped into `[1500, 3500]` -/

/-- C1.  For every value of the three converted distances and every gain
`Kp`, after a `Controller_3` tick both `Duty_Cycle_Left` and
`Duty_Cycle_Right` lie in `[PWM_NOMINAL - PWM_SWING, PWM_NOMINAL + PWM_SWING]
= [1500, 3500]`, and the only duty-cycle pairs handed to a motor actuation
function (`Motor_Forward` or `Motor_Backward`) during the tick are exactly
this clamped pair, hence also within the range. -/
theorem C1_duty_cycles_always_clamped : ∀ left center right Kp : ℤ,
    (PWM_MIN ≤ (Controller_3 left center right Kp).Duty_Cycle_Left ∧
      (Controller_3 left center right Kp).Duty_Cycle_Left ≤ PWM_MAX) ∧
    (PWM_MIN ≤ (Controller_3 left center right Kp).Duty_Cycle_Right ∧
      (Controller_3 left center right Kp).Duty_Cycle_Right ≤ PWM_MAX) ∧
    ((Controller_3 left center right Kp).cmd =
        MotorCmd.forward (Controller_3 left center right Kp).Duty_Cycle_Left
          (Controller_3 left center right Kp).Duty_Cycle_Right ∨
      (Controller_3 left center right Kp).cmd =
        MotorCmd.backward (Controller_3 left center right Kp).Duty_Cycle_Left
          (Controller_3 left center right Kp).Duty_Cycle_Right ∨
      (Controller_3 left center right Kp).cmd = MotorCmd.stop) := by
  intro left center right Kp
  refine ⟨?_, ?_, ?_⟩
  · rw [Controller_3_Duty_Cycle_Left_eq]
    exact clampDuty_bounds _
  · rw [Controller_3_Duty_Cycle_Right_eq]
    exact clampDuty_bounds _
  · rw [Controller_3_cmd_eq]
    split_ifs
    · exact Or.inl rfl
    · exact Or.inr (Or.inl rfl)
    · exact Or.inr (Or.inr rfl)

/-! ### C2: the three-way actuation policy on the center distance -/

/-- C2 counterexample.  At `center = 250` (with `left = right = 500`,
`Kp = 4`) the code commands `Motor_Forward` because `Controller_3` tests
`center >= DESIRED_DISTANCE`, while the claim's policy (forward only when
`center > DESIRED_DISTANCE`) would command stop. -/
theorem C2_center_250_code_forward_claim_stop :
    (Controller_3 500 250 500 4).cmd = MotorCmd.forward 2500 2500 ∧
    claimC2Policy 250 (Controller_3 500 250 500 4).Duty_Cycle_Left
        (Controller_3 500 250 500 4).Duty_Cycle_Right = MotorCmd.stop ∧
    MotorCmd.forward 2500 2500 ≠ MotorCmd.stop := by
  refine ⟨by decide, by decide, by decide⟩

/-- C2 amended.  On every `Controller_3` tick the command is forward with the
computed duty cycles when the center distance is greater than OR EQUAL TO the
desired distance (250 mm) and below 800 mm, backward when the center distance
is below desired-minus-margin (200 mm), and stop otherwise; in particular for
`center = 150` the command is backward regardless of the other inputs. -/
theorem C2_actuation_policy : ∀ left center right Kp : ℤ,
    (DESIRED_DISTANCE ≤ center ∧ center < 800 →
      (Controller_3 left center right Kp).cmd =
        MotorCmd.forward (Controller_3 left center right Kp).Duty_Cycle_Left
          (Controller_3 left center right Kp).Duty_Cycle_Right) ∧
    (center < DESIRED_DISTANCE - 50 →
      (Controller_3 left center right Kp).cmd =
        MotorCmd.backward (Controller_3 left center right Kp).Duty_Cycle_Left
          (Controller_3 left center right Kp).Duty_Cycle_Right) ∧
    (¬(DESIRED_DISTANCE ≤ center ∧ center < 800) →
      ¬center < DESIRED_DISTANCE - 50 →
      (Controller_3 left center right Kp).cmd = MotorCmd.stop) ∧
    (center = 150 →
      (Controller_3 left center right Kp).cmd =
        MotorCmd.backward (Controller_3 left center right Kp).Duty_Cycle_Left
          (Controller_3 left center right Kp).Duty_Cycle_Right) := by
  intro left center right Kp
  rw [Controller_3_cmd_eq]
  unfold DESIRED_DISTANCE
  refine ⟨?_, ?_, ?_, ?_⟩
  · intro h
    rw [if_pos ⟨h.1, h.2⟩]
  · intro h
    rw [if_neg (by omega), if_pos (by omega)]
  · intro h1 h2
    rw [if_neg (by omega), if_neg (by omega)]
  · intro h
    subst h
    rw [if_neg (by omega), if_pos (by omega)]

/-- C2 witness: the amended policy applied at `left = 300`, `center = 150`,
`right = 300`, `Kp = 4` yields the backward command. -/
theorem C2_actuation_policy_witness :
    (Controller_3 300 150 300 4).cmd =
      MotorCmd.backward (Controller_3 300 150 300 4).Duty_Cycle_Left
        (Controller_3 300 150 300 4).Duty_Cycle_Right :=
  (C2_actuation_policy 300 150 300 4).2.1 (by decide)

/-! ### C3: set-point selection and asymmetric error -/

/-- C3.  On every tick, if both converted side distances exceed 250 mm then
`Set_Point` is the truncating integer average `(left + right) / 2`, otherwise
`Set_Point = 250`; then `Error = left - Set_Point` when `left < right` and
`Error = Set_Point - right` otherwise.  In particular `left = right = 500`
gives `Set_Point = 500`, and `left = 100`, `right = 500` gives
`Set_Point = 250` with `Error = -150`. -/
theorem C3_set_point_and_error :
    (∀ left center right Kp : ℤ,
      (left > DESIRED_DISTANCE ∧ right > DESIRED_DISTANCE →
        (Controller_3 left center right Kp).Set_Point = Int.tdiv (left + right) 2) ∧
      (¬(left > DESIRED_DISTANCE ∧ right > DESIRED_DISTANCE) →
        (Controller_3 left center right Kp).Set_Point = 250) ∧
      (left < right →
        (Controller_3 left center right Kp).Error =
          left - (Controller_3 left center right Kp).Set_Point) ∧
      (¬left < right →
        (Controller_3 left center right Kp).Error =
          (Controller_3 left center right Kp).Set_Point - right)) ∧
    (∀ center Kp : ℤ,
      (Controller_3 500 center 500 Kp).Set_Point = 500 ∧
      (Controller_3 100 center 500 Kp).Set_Point = 250 ∧
      (Controller_3 100 center 500 Kp).Error = -150) := by
  constructor
  · intro left center right Kp
    refine ⟨?_, ?_, ?_, ?_⟩
    · intro h
      rw [Controller_3_Set_Point_eq, if_pos h]
    · intro h
      rw [Controller_3_Set_Point_eq, if_neg h]
      decide
    · intro h
      rw [Controller_3_Error_eq, if_pos h]
    · intro h
      rw [Controller_3_Error_eq, if_neg h]
  · intro center Kp
    refine ⟨?_, ?_, ?_⟩
    · rw [Controller_3_Set_Point_eq, if_pos (by unfold DESIRED_DISTANCE; omega)]
      decide
    · rw [Controller_3_Set_Point_eq, if_neg (by unfold DESIRED_DISTANCE; omega)]
      decide
    · rw [Controller_3_Error_eq, if_pos (by omega),
        Controller_3_Set_Point_eq, if_neg (by unfold DESIRED_DISTANCE; omega)]
      decide

/-- C3 witness: the general branches applied at `left = 400`, `right = 600`
(both above 250): the set point is the truncated average 500. -/
theorem C3_set_point_and_error_witness :
    (Controller_3 400 0 600 4).Set_Point = Int.tdiv (400 + 600) 2 :=
  (C3_set_point_and_error.1 400 0 600 4).1 (by decide)

/-! ### C4: calibration threshold and formula -/

/-- C4.  `Analog_Distance_Sensor_Calibrate` returns the 800 sentinel for
every input below `ANALOG_DISTANCE_SENSOR_MAX = 2552` and the truncating
rational formula `1195159 / (x - 1058) + 40` for every input at or above it;
at the boundary, `calibrate 2551 = 800` (sentinel) while `calibrate 2552` is
the formula value, which is not the sentinel. -/
theorem C4_calibrate_threshold_and_formula : ∀ x : ℤ,
    (x < 2552 → Analog_Distance_Sensor_Calibrate x = 800) ∧
    (2552 ≤ x →
      Analog_Distance_Sensor_Calibrate x = Int.tdiv 1195159 (x - 1058) + 40) ∧
    Analog_Distance_Sensor_Calibrate 2551 = 800 ∧
    Analog_Distance_Sensor_Calibrate 2552 = Int.tdiv 1195159 (2552 - 1058) + 40 ∧
    Analog_Distance_Sensor_Calibrate 2552 ≠ 800 := by
  intro x
  refine ⟨?_, ?_, by decide, by decide, by decide⟩
  · intro h
    unfold Analog_Distance_Sensor_Calibrate ANALOG_DISTANCE_SENSOR_MAX
    rw [if_pos h]
  · intro h
    unfold Analog_Distance_Sensor_Calibrate ANALOG_DISTANCE_SENSOR_MAX Ax Bx Cx
    rw [if_neg (by omega)]
    ring_nf

/-- C4 witness: the sentinel branch applied at `x = 100`. -/
theorem C4_calibrate_threshold_and_formula_witness :
    Analog_Distance_Sensor_Calibrate 100 = 800 :=
  (C4_calibrate_threshold_and_formula 100).1 (by decide)

/-! ### C10: range of the calibrated distance on the 14-bit ADC domain -/

/-- C10.  For every filtered input in `[2552, 16383]` the calibrated distance
lies in `[117, 839]`; `calibrate 2630 = 800` exactly equals the far sentinel,
`calibrate 2552 = 839` exceeds it, and any center distance of 800 or more
(in particular the formula values 801..839) fails the controller's
`center < 800` forward check, making the tick command stop. -/
theorem C10_calibrate_range_overlaps_sentinel :
    (∀ x : ℤ, 2552 ≤ x → x ≤ 16383 →
      117 ≤ Analog_Distance_Sensor_Calibrate x ∧
        Analog_Distance_Sensor_Calibrate x ≤ 839) ∧
    Analog_Distance_Sensor_Calibrate 2630 = 800 ∧
    Analog_Distance_Sensor_Calibrate 2552 = 839 ∧
    (800 : ℤ) < 839 ∧
    (∀ left right Kp center : ℤ, 800 ≤ center →
      (Controller_3 left center right Kp).cmd = MotorCmd.stop) := by
  refine ⟨?_, by decide, by decide, by decide, ?_⟩
  · intro x hx1 hx2
    have hform : Analog_Distance_Sensor_Calibrate x =
        Int.tdiv 1195159 (x - 1058) + 40 :=
      ((C4_calibrate_threshold_and_formula x).2.1) hx1
    set n : ℕ := (x - 1058).toNat with hn
    have hcast : ((n : ℤ)) = x - 1058 := by omega
    have hn1 : 1494 ≤ n := by omega
    have hn2 : n ≤ 15325 := by omega
    have hdiv : Int.tdiv 1195159 (x - 1058) = ((1195159 / n : ℕ) : ℤ) := by
      rw [← hcast, Int.ofNat_tdiv]
      norm_num
    have hub : 1195159 / n ≤ 799 := by
      calc 1195159 / n ≤ 1195159 / 1494 := Nat.div_le_div_left hn1 (by norm_num)
      _ = 799 := by norm_num
    have hlb : 77 ≤ 1195159 / n := by
      calc (77 : ℕ) = 1195159 / 15325 := by norm_num
      _ ≤ 1195159 / n := Nat.div_le_div_left hn2 (by omega)
    rw [hform, hdiv]
    omega
  · intro left right Kp center h
    rw [Controller_3_cmd_eq]
    unfold DESIRED_DISTANCE
    rw [if_neg (by omega), if_neg (by omega)]

/-- C10 witness: at `x = 3000` the calibrated distance is within `[117, 839]`,
and with a center reading of 839 the controller commands stop. -/
theorem C10_calibrate_range_overlaps_sentinel_witness :
    (117 ≤ Analog_Distance_Sensor_Calibrate 3000 ∧
      Analog_Distance_Sensor_Calibrate 3000 ≤ 839) ∧
    (Controller_3 300 839 300 4).cmd = MotorCmd.stop :=
  ⟨C10_calibrate_range_overlaps_sentinel.1 3000 (by decide) (by decide),
    C10_calibrate_range_overlaps_sentinel.2.2.2.2 300 300 4 839 (by decide)⟩

/-! ### Helper lemmas for the low-pass filter -/

lemma LPF_Calc_eq (v : ℕ) (s : LPFState) :
    LPF_Calc v s =
      ({ s with
          I1 := if s.I1 = 0 then s.Size - 1 else s.I1 - 1
          LPFSum := (s.LPFSum + v % U32 +
            (U32 - s.x (if s.I1 = 0 then s.Size - 1 else s.I1 - 1))) % U32
          x := Function.update s.x
            (if s.I1 = 0 then s.Size - 1 else s.I1 - 1) (v % U32) },
       (s.LPFSum + v % U32 +
        (U32 - s.x (if s.I1 = 0 then s.Size - 1 else s.I1 - 1))) % U32 / s.Size) :=
  rfl

lemma LPF_Init_eq (initial size : ℕ) (s : LPFState) :
    LPF_Init initial size s =
      { s with
        Size := if size > 1024 then 1024 else size
        I1 := (if size > 1024 then 1024 else size) - 1
        LPFSum := (if size > 1024 then 1024 else size) * (initial % U32) % U32
        x := fun i =>
          if i < (if size > 1024 then 1024 else size) then initial % U32
          else s.x i } :=
  rfl

/-- Channel 1 of the filter holds depth `N`, a window constantly equal to
`S`, a legal oldest-slot index, and running sum `N * S`. -/
def lpfSteady (N S : ℕ) (s : LPFState) : Prop :=
  s.Size = N ∧ s.I1 < N ∧ (∀ i, i < N → s.x i = S) ∧ s.LPFSum = N * S

lemma lpfSteady_calc {N S : ℕ} {s : LPFState} (hN : 1 ≤ N) (hS : S < U32)
    (hNS : N * S < U32) (h : lpfSteady N S s) :
    (LPF_Calc S s).2 = S ∧ lpfSteady N S (LPF_Calc S s).1 := by
  obtain ⟨h1, h2, h3, h4⟩ := h
  have hi : (if s.I1 = 0 then s.Size - 1 else s.I1 - 1) < N := by
    rw [h1]; split_ifs <;> omega
  have hxi : s.x (if s.I1 = 0 then s.Size - 1 else s.I1 - 1) = S := h3 _ hi
  have hmodS : S % U32 = S := Nat.mod_eq_of_lt hS
  have hsum : (s.LPFSum + S % U32 +
      (U32 - s.x (if s.I1 = 0 then s.Size - 1 else s.I1 - 1))) % U32 = N * S := by
    rw [hxi, hmodS, h4]
    unfold U32 at hS hNS ⊢
    omega
  constructor
  · rw [LPF_Calc_eq]
    dsimp only
    rw [hsum, h1]
    exact Nat.mul_div_cancel_left S (by omega)
  · rw [LPF_Calc_eq]
    refine ⟨h1, hi, ?_, hsum⟩
    intro j hj
    dsimp only
    rw [Function.update_apply]
    split_ifs
    all_goals first
    | exact hmodS
    | exact h3 j hj

lemma lpfSteady_run {N S : ℕ} (hN : 1 ≤ N) (hS : S < U32) (hNS : N * S < U32) :
    ∀ n : ℕ, ∀ s : LPFState, lpfSteady N S s →
      (LPF_Calc_run n S s).2 = List.replicate n S ∧
      lpfSteady N S (LPF_Calc_run n S s).1 := by
  intro n
  induction n with
  | zero => exact fun s h => ⟨rfl, h⟩
  | succ n ih =>
    intro s h
    have hstep := lpfSteady_calc hN hS hNS h
    have hrest := ih (LPF_Calc S s).1 hstep.2
    unfold LPF_Calc_run
    refine ⟨?_, hrest.2⟩
    rw [List.replicate_succ]
    exact congrArg₂ List.cons hstep.1 hrest.1

lemma lpfSteady_init {N S : ℕ} (s0 : LPFState) (hN : 1 ≤ N) (hS : S < U32)
    (hNS : min N 1024 * S < U32) :
    lpfSteady (min N 1024) S (LPF_Init S N s0) := by
  have hmodS : S % U32 = S := Nat.mod_eq_of_lt hS
  have hsz : (if N > 1024 then 1024 else N) = min N 1024 := by split_ifs <;> omega
  rw [LPF_Init_eq]
  simp only [hsz, hmodS]
  refine ⟨rfl, by dsimp only; omega, ?_, Nat.mod_eq_of_lt hNS⟩
  intro i hi
  dsimp only
  rw [if_pos hi]

/-! ### C5: a constant seed is a fixed point of the filter (amended) -/

/-- C5 counterexample.  With depth `N = 2` and seed `S = 2^31` the product
`N * S` overflows the `uint32_t` running sum (`LPFSum` is primed to 0), so
both of the next two `LPF_Calc (2^31)` calls return 0, not the seed. -/
theorem C5_seed_overflow_counterexample :
    (LPF_Calc_run 2 2147483648 (LPF_Init 2147483648 2 LPF_initialState)).2 =
      [0, 0] ∧ (0 : ℕ) ≠ 2147483648 := by
  constructor
  · decide
  · decide

/-- C5 amended.  For every depth `N ≥ 2` and seed `S`, PROVIDED the primed
running sum does not overflow 32 bits (`min N 1024 * S < 2^32`, with the
depth clamped at the implementation maximum 1024), every call of
`LPF_Calc S` after `LPF_Init S N` returns exactly `S` — in particular each
of the first `N` calls does. -/
theorem C5_constant_seed_fixed_point :
    ∀ N S n : ℕ, ∀ s0 : LPFState, 2 ≤ N → min N 1024 * S < U32 →
      (LPF_Calc_run n S (LPF_Init S N s0)).2 = List.replicate n S := by
  intro N S n s0 hN hNS
  have hN' : 1 ≤ min N 1024 := by omega
  have hS : S < U32 := by
    have : 2 * S ≤ min N 1024 * S := Nat.mul_le_mul_right S (by omega)
    omega
  exact (lpfSteady_run hN' hS hNS n _ (lpfSteady_init s0 (by omega) hS hNS)).1

/-- C5 witness: depth 4, seed 7: the first 4 outputs are all 7. -/
theorem C5_constant_seed_fixed_point_witness :
    (LPF_Calc_run 4 7 (LPF_Init 7 4 LPF_initialState)).2 =
      List.replicate 4 7 :=
  C5_constant_seed_fixed_point 4 7 4 LPF_initialState (by decide) (by decide)

/-! ### C6: step response of the filter (amended) -/

/-- Channel-1 state after `k` step inputs of value `V` into a filter of depth
`N` seeded with 0: during pre-fill (`k < N`) the slots `[N-1-k, N-2]` hold
`V`, slot `N-1` and the slots below `N-1-k` still hold the seed 0, and the
oldest-slot index is `N-1-k`; once full (`k ≥ N`) the whole window holds `V`.
The running sum is `min k N * V` throughout. -/
def c6Inv (N V k : ℕ) (s : LPFState) : Prop :=
  s.Size = N ∧ s.LPFSum = min k N * V ∧
  (if k < N then
    s.I1 = N - 1 - k ∧
      (∀ i, i < N → s.x i = if N - 1 - k ≤ i ∧ i < N - 1 then V else 0)
  else s.I1 < N ∧ (∀ i, i < N → s.x i = V))

lemma c6Inv_calc {N V k : ℕ} {s : LPFState} (hN : 1 ≤ N) (hV : V < U32)
    (hNV : N * V < U32) (h : c6Inv N V k s) :
    (LPF_Calc V s).2 = min (k + 1) N * V / N ∧
      c6Inv N V (k + 1) (LPF_Calc V s).1 := by
  obtain ⟨h1, h2, h3⟩ := h
  have hVmod : V % U32 = V := Nat.mod_eq_of_lt hV
  by_cases hk : k < N
  · rw [if_pos hk] at h3
    obtain ⟨hI, hx⟩ := h3
    have hminkN : min k N = k := Nat.min_eq_left (Nat.le_of_lt hk)
    have hmink1N : min (k + 1) N = k + 1 := Nat.min_eq_left hk
    have hidxlt : (if s.I1 = 0 then s.Size - 1 else s.I1 - 1) < N := by
      split_ifs <;> omega
    have hev : s.x (if s.I1 = 0 then s.Size - 1 else s.I1 - 1) = 0 := by
      rw [hx _ hidxlt]
      split_ifs <;> omega
    have hd : (k + 1) * V = k * V + V := by ring
    have hlt : k * V + V < U32 := by
      have h5 : (k + 1) * V ≤ N * V := Nat.mul_le_mul_right V (by omega)
      rw [hd] at h5
      omega
    have hsum : (s.LPFSum + V % U32 +
        (U32 - s.x (if s.I1 = 0 then s.Size - 1 else s.I1 - 1))) % U32 =
        k * V + V := by
      rw [hev, hVmod, h2, hminkN]
      unfold U32 at hlt ⊢
      omega
    constructor
    · rw [LPF_Calc_eq]
      dsimp only
      rw [hsum, h1, hmink1N, hd]
    · rw [LPF_Calc_eq]
      refine ⟨h1, ?_, ?_⟩
      · dsimp only
        rw [hsum, hmink1N, hd]
      · by_cases hk2 : k + 1 < N
        · rw [if_pos hk2]
          constructor
          · dsimp only
            split_ifs <;> omega
          · intro i hi
            dsimp only
            rw [Function.update_apply, hVmod, hx i hi]
            split_ifs <;> omega
        · rw [if_neg hk2]
          constructor
          · dsimp only
            split_ifs <;> omega
          · intro i hi
            dsimp only
            rw [Function.update_apply, hVmod, hx i hi]
            split_ifs <;> omega
  · rw [if_neg hk] at h3
    obtain ⟨hI, hx⟩ := h3
    have hst : lpfSteady N V s :=
      ⟨h1, hI, hx, by rw [h2, Nat.min_eq_right (by omega)]⟩
    have hc := lpfSteady_calc hN hV hNV hst
    have hminN : min (k + 1) N = N := Nat.min_eq_right (by omega)
    constructor
    · rw [hminN, Nat.mul_div_cancel_left V (by omega)]
      exact hc.1
    · obtain ⟨s1, si, sx, ss⟩ := hc.2
      refine ⟨s1, by rw [ss, hminN], ?_⟩
      rw [if_neg (by omega)]
      exact ⟨si, sx⟩

lemma LPF_Calc_run_length : ∀ n v : ℕ, ∀ s : LPFState,
    (LPF_Calc_run n v s).2.length = n := by
  intro n
  induction n with
  | zero => intro v s; rfl
  | succ n ih =>
    intro v s
    unfold LPF_Calc_run
    dsimp only
    rw [List.length_cons, ih]

lemma c6Inv_run_getD {N V : ℕ} (hN : 1 ≤ N) (hV : V < U32) (hNV : N * V < U32) :
    ∀ n k : ℕ, ∀ s : LPFState, c6Inv N V k s → ∀ i, i < n →
      (LPF_Calc_run n V s).2.getD i 0 = min (k + i + 1) N * V / N := by
  intro n
  induction n with
  | zero => intro k s h i hi; omega
  | succ n ih =>
    intro k s h i hi
    have hstep := c6Inv_calc hN hV hNV h
    unfold LPF_Calc_run
    dsimp only
    cases i with
    | zero =>
      rw [List.getD_cons_zero, hstep.1]
    | succ i =>
      rw [List.getD_cons_succ, ih (k + 1) _ hstep.2 i (by omega)]
      have he : k + 1 + i + 1 = k + (i + 1) + 1 := by omega
      rw [he]

lemma c6Inv_init (N V : ℕ) (s0 : LPFState) (hN : 1 ≤ N) :
    c6Inv (min N 1024) V 0 (LPF_Init 0 N s0) := by
  have hsz : (if N > 1024 then 1024 else N) = min N 1024 := by
    split_ifs <;> omega
  rw [LPF_Init_eq]
  simp only [hsz, Nat.zero_mod, Nat.mul_zero, Nat.zero_mod]
  refine ⟨rfl, by simp, ?_⟩
  rw [if_pos (by omega)]
  refine ⟨by dsimp only; omega, ?_⟩
  intro i hi
  dsimp only
  rw [if_pos hi, if_neg (by omega)]

/-- C6 counterexample.  With depth 2, seed 0 and step value `V = 2^31` the
two outputs are `[2^30, 0]`: the second output is not `V` and the sequence
strictly decreases, because `2 * V` overflows the `uint32_t` running sum. -/
theorem C6_step_overflow_counterexample :
    (LPF_Calc_run 2 2147483648 (LPF_Init 0 2 LPF_initialState)).2 =
      [1073741824, 0] ∧ ¬(1073741824 : ℕ) ≤ 0 ∧ (0 : ℕ) ≠ 2147483648 := by
  refine ⟨by decide, by decide, by decide⟩

/-- C6 amended.  For every depth `N ≥ 2` and step value `V`, PROVIDED the
full window sum does not overflow 32 bits (`min N 1024 * V < 2^32`, depth
clamped at 1024), seeding with 0 and feeding `N` updates of `V` produces
`N` outputs, the `N`-th output is exactly `V`, and the output sequence is
monotonically non-decreasing. -/
theorem C6_step_response_reaches_input :
    ∀ N V : ℕ, ∀ s0 : LPFState, 2 ≤ N → min N 1024 * V < U32 →
      (LPF_Calc_run N V (LPF_Init 0 N s0)).2.length = N ∧
      (LPF_Calc_run N V (LPF_Init 0 N s0)).2.getD (N - 1) 0 = V ∧
      (∀ i j : ℕ, i ≤ j → j < N →
        (LPF_Calc_run N V (LPF_Init 0 N s0)).2.getD i 0 ≤
          (LPF_Calc_run N V (LPF_Init 0 N s0)).2.getD j 0) := by
  intro N V s0 hN hNV
  have hN1 : 1 ≤ min N 1024 := by omega
  have hV : V < U32 := by
    have h5 : 2 * V ≤ min N 1024 * V := Nat.mul_le_mul_right V (by omega)
    omega
  have hinv := c6Inv_init N V s0 (by omega)
  have hget := c6Inv_run_getD hN1 hV hNV N 0 _ hinv
  refine ⟨LPF_Calc_run_length N V _, ?_, ?_⟩
  · rw [hget (N - 1) (by omega)]
    have he : 0 + (N - 1) + 1 = N := by omega
    rw [he, Nat.min_eq_right (Nat.min_le_left N 1024),
      Nat.mul_div_cancel_left V (by omega)]
  · intro i j hij hj
    rw [hget i (by omega), hget j (by omega)]
    exact Nat.div_le_div_right
      (Nat.mul_le_mul_right V (min_le_min (by omega) (le_refl _)))

/-- C6 witness: depth 4, step value 8: outputs have length 4, end at 8,
and are non-decreasing at positions 1 and 3. -/
theorem C6_step_response_reaches_input_witness :
    (LPF_Calc_run 4 8 (LPF_Init 0 4 LPF_initialState)).2.length = 4 ∧
    (LPF_Calc_run 4 8 (LPF_Init 0 4 LPF_initialState)).2.getD 3 0 = 8 ∧
    (LPF_Calc_run 4 8 (LPF_Init 0 4 LPF_initialState)).2.getD 1 0 ≤
      (LPF_Calc_run 4 8 (LPF_Init 0 4 LPF_initialState)).2.getD 3 0 := by
  obtain ⟨hl, hlast, hmono⟩ :=
    C6_step_response_reaches_input 4 8 LPF_initialState (by decide) (by decide)
  exact ⟨hl, hlast, hmono 1 3 (by decide) (by decide)⟩

/-! ### C7: running sum equals window sum; outputs bounded by window (amended) -/

lemma LPF_Init_windowSum (initial size : ℕ) (s0 : LPFState)
    (hinit : initial < U32) (hsm : min size 1024 * initial < U32) :
    (LPF_Init initial size s0).LPFSum = windowSum (LPF_Init initial size s0) := by
  have hmod : initial % U32 = initial := Nat.mod_eq_of_lt hinit
  have hsz : (if size > 1024 then 1024 else size) = min size 1024 := by
    split_ifs <;> omega
  rw [LPF_Init_eq]
  unfold windowSum
  simp only [hmod, hsz]
  rw [Nat.mod_eq_of_lt hsm]
  rw [Finset.sum_congr rfl (fun i hi => if_pos (Finset.mem_range.mp hi))]
  rw [Finset.sum_const, Finset.card_range, smul_eq_mul]

lemma LPF_Calc_preserves_windowSum (s : LPFState) (v : ℕ)
    (h1 : 1 ≤ s.Size) (h2 : s.I1 < s.Size) (h3 : s.LPFSum = windowSum s)
    (h4 : windowSum s + v < U32) :
    (LPF_Calc v s).1.LPFSum = windowSum (LPF_Calc v s).1 ∧
    (LPF_Calc v s).1.Size = s.Size ∧
    (LPF_Calc v s).2 = windowSum (LPF_Calc v s).1 / s.Size := by
  have hv : v < U32 := by omega
  have hvmod : v % U32 = v := Nat.mod_eq_of_lt hv
  have hidx : (if s.I1 = 0 then s.Size - 1 else s.I1 - 1) < s.Size := by
    split_ifs <;> omega
  have hmem : (if s.I1 = 0 then s.Size - 1 else s.I1 - 1) ∈ Finset.range s.Size :=
    Finset.mem_range.mpr hidx
  have hsd : ∑ j ∈ Finset.range s.Size \
        {if s.I1 = 0 then s.Size - 1 else s.I1 - 1}, s.x j +
        s.x (if s.I1 = 0 then s.Size - 1 else s.I1 - 1) = windowSum s := by
    rw [Finset.sdiff_singleton_eq_erase]
    exact Finset.sum_erase_add _ _ hmem
  have hws : windowSum (LPF_Calc v s).1 =
      v + ∑ j ∈ Finset.range s.Size \
        {if s.I1 = 0 then s.Size - 1 else s.I1 - 1}, s.x j := by
    rw [LPF_Calc_eq]
    unfold windowSum
    dsimp only
    simp only [hvmod]
    exact Finset.sum_update_of_mem hmem s.x v
  have hxle : s.x (if s.I1 = 0 then s.Size - 1 else s.I1 - 1) ≤ windowSum s :=
    Finset.single_le_sum (fun _ _ => Nat.zero_le _) hmem
  have hsum : (s.LPFSum + v % U32 +
      (U32 - s.x (if s.I1 = 0 then s.Size - 1 else s.I1 - 1))) % U32 =
      v + ∑ j ∈ Finset.range s.Size \
        {if s.I1 = 0 then s.Size - 1 else s.I1 - 1}, s.x j := by
    rw [hvmod, h3]
    unfold U32 at h4 ⊢
    omega
  refine ⟨?_, rfl, ?_⟩
  · rw [hws]
    exact hsum
  · rw [hws]
    exact congrArg (fun t => t / s.Size) hsum

lemma windowSum_div_bounds (s : LPFState) (hsz : 1 ≤ s.Size) (m M : ℕ)
    (h : ∀ i, i < s.Size → m ≤ s.x i ∧ s.x i ≤ M) :
    m ≤ windowSum s / s.Size ∧ windowSum s / s.Size ≤ M := by
  have hlow : s.Size * m ≤ windowSum s := by
    have := Finset.card_nsmul_le_sum (Finset.range s.Size) s.x m
      (fun i hi => (h i (Finset.mem_range.mp hi)).1)
    rwa [Finset.card_range, smul_eq_mul] at this
  have hhigh : windowSum s ≤ s.Size * M := by
    have := Finset.sum_le_card_nsmul (Finset.range s.Size) s.x M
      (fun i hi => (h i (Finset.mem_range.mp hi)).2)
    rwa [Finset.card_range, smul_eq_mul] at this
  constructor
  · rw [Nat.le_div_iff_mul_le (by omega), Nat.mul_comm]
    exact hlow
  · calc windowSum s / s.Size ≤ s.Size * M / s.Size :=
        Nat.div_le_div_right hhigh
    _ = M := Nat.mul_div_cancel_left M (by omega)

/-- C7 counterexample.  Initializing a depth-2 filter with seed `2^31`
overflows the `uint32_t` running sum: `LPFSum` is 0 while the two stored
window samples sum to `2^32`, so the running sum does not equal the window
sum after initialization. -/
theorem C7_sum_invariant_overflow_counterexample :
    (LPF_Init 2147483648 2 LPF_initialState).LPFSum = 0 ∧
    windowSum (LPF_Init 2147483648 2 LPF_initialState) = 4294967296 ∧
    (0 : ℕ) ≠ 4294967296 := by
  refine ⟨by decide, by decide, by decide⟩

/-- C7 amended.  PROVIDED the 32-bit arithmetic does not overflow: after
`LPF_Init` (with `min size 1024 * initial < 2^32`) the running sum equals
the sum of the stored window, and one `LPF_Calc` step from any state whose
running sum equals its window sum (with legal index and
`windowSum + new sample < 2^32`) preserves the equality; moreover the value
the step returns lies between any lower bound `m` and upper bound `M` of
the samples in the updated window. -/
theorem C7_sum_invariant_and_output_bounds :
    (∀ initial size : ℕ, ∀ s0 : LPFState,
      initial < U32 → min size 1024 * initial < U32 →
      (LPF_Init initial size s0).LPFSum = windowSum (LPF_Init initial size s0)) ∧
    (∀ s : LPFState, ∀ v : ℕ, 1 ≤ s.Size → s.I1 < s.Size →
      s.LPFSum = windowSum s → windowSum s + v < U32 →
      (LPF_Calc v s).1.LPFSum = windowSum (LPF_Calc v s).1 ∧
      (∀ m M : ℕ,
        (∀ i, i < (LPF_Calc v s).1.Size →
          m ≤ (LPF_Calc v s).1.x i ∧ (LPF_Calc v s).1.x i ≤ M) →
        m ≤ (LPF_Calc v s).2 ∧ (LPF_Calc v s).2 ≤ M)) := by
  constructor
  · exact fun initial size s0 h1 h2 => LPF_Init_windowSum initial size s0 h1 h2
  · intro s v h1 h2 h3 h4
    obtain ⟨hsum, hsz, hout⟩ := LPF_Calc_preserves_windowSum s v h1 h2 h3 h4
    refine ⟨hsum, ?_⟩
    intro m M hm
    have hb := windowSum_div_bounds (LPF_Calc v s).1 (by omega) m M
      (fun i hi => hm i (by omega))
    rw [hsz] at hb
    rw [hout]
    exact hb

/-- C7 witness: a depth-4 filter seeded with 5 has running sum 20 equal to
its window sum, and feeding 9 keeps the invariant and returns a value
between 5 and 9 (the window then holds three 5s and one 9). -/
theorem C7_sum_invariant_and_output_bounds_witness :
    ((LPF_Init 5 4 LPF_initialState).LPFSum =
      windowSum (LPF_Init 5 4 LPF_initialState)) ∧
    ((LPF_Calc 9 (LPF_Init 5 4 LPF_initialState)).1.LPFSum =
      windowSum (LPF_Calc 9 (LPF_Init 5 4 LPF_initialState)).1 ∧
      (5 ≤ (LPF_Calc 9 (LPF_Init 5 4 LPF_initialState)).2 ∧
        (LPF_Calc 9 (LPF_Init 5 4 LPF_initialState)).2 ≤ 9)) :=
  ⟨C7_sum_invariant_and_output_bounds.1 5 4 LPF_initialState (by decide) (by decide),
    ⟨(C7_sum_invariant_and_output_bounds.2 (LPF_Init 5 4 LPF_initialState) 9
        (by decide) (by decide) (by decide) (by decide)).1,
      (C7_sum_invariant_and_output_bounds.2 (LPF_Init 5 4 LPF_initialState) 9
        (by decide) (by decide) (by decide) (by decide)).2 5 9 (by decide)⟩⟩

/-! ### C8: channel independence (amended: `Size` is shared) -/

/-- C8 counterexample.  After `LPF_Init 0 4` (channel 1 primed with depth 4),
the next `LPF_Calc 8` returns 2; but if `LPF_Init2 5 2` is called on channel
2 in between, the same `LPF_Calc 8` call returns 4, because `LPF_Init2`
overwrote the shared depth global `Size` — so a call on one channel does
change another channel's output sequence. -/
theorem C8_init2_changes_channel1_output :
    (LPF_Calc 8 (LPF_Init 0 4 LPF_initialState)).2 = 2 ∧
    (LPF_Calc 8 (LPF_Init2 5 2 (LPF_Init 0 4 LPF_initialState))).2 = 4 ∧
    (2 : ℕ) ≠ 4 := by
  refine ⟨by decide, by decide, by decide⟩

/-- C8 amended.  The three channels have disjoint buffers, indices and
running sums: an update (`LPF_Calc`, `LPF_Calc2`, `LPF_Calc3`) mutates only
its own channel's buffer, index and sum and leaves the depth and the other
two channels' entire state unchanged; an init (`LPF_Init2` shown here, and
symmetrically the others) also leaves the other channels' buffers, indices
and sums unchanged — but the depth `Size` is a single shared global, which
`LPF_Init2` overwrites with its own clamped size (`min size 512`), so the
channels are NOT independent through `Size`. -/
theorem C8_channel_frame_conditions : ∀ v initial size : ℕ, ∀ s : LPFState,
    ((LPF_Calc v s).1.x2 = s.x2 ∧ (LPF_Calc v s).1.Pt2 = s.Pt2 ∧
      (LPF_Calc v s).1.LPFSum2 = s.LPFSum2 ∧ (LPF_Calc v s).1.x3 = s.x3 ∧
      (LPF_Calc v s).1.Pt3 = s.Pt3 ∧ (LPF_Calc v s).1.LPFSum3 = s.LPFSum3 ∧
      (LPF_Calc v s).1.Size = s.Size) ∧
    ((LPF_Calc2 v s).1.x = s.x ∧ (LPF_Calc2 v s).1.I1 = s.I1 ∧
      (LPF_Calc2 v s).1.LPFSum = s.LPFSum ∧ (LPF_Calc2 v s).1.x3 = s.x3 ∧
      (LPF_Calc2 v s).1.Pt3 = s.Pt3 ∧ (LPF_Calc2 v s).1.LPFSum3 = s.LPFSum3 ∧
      (LPF_Calc2 v s).1.Size = s.Size) ∧
    ((LPF_Calc3 v s).1.x = s.x ∧ (LPF_Calc3 v s).1.I1 = s.I1 ∧
      (LPF_Calc3 v s).1.LPFSum = s.LPFSum ∧ (LPF_Calc3 v s).1.x2 = s.x2 ∧
      (LPF_Calc3 v s).1.Pt2 = s.Pt2 ∧ (LPF_Calc3 v s).1.LPFSum2 = s.LPFSum2 ∧
      (LPF_Calc3 v s).1.Size = s.Size) ∧
    ((LPF_Init2 initial size s).x = s.x ∧ (LPF_Init2 initial size s).I1 = s.I1 ∧
      (LPF_Init2 initial size s).LPFSum = s.LPFSum ∧
      (LPF_Init2 initial size s).x3 = s.x3 ∧
      (LPF_Init2 initial size s).Pt3 = s.Pt3 ∧
      (LPF_Init2 initial size s).LPFSum3 = s.LPFSum3 ∧
      (LPF_Init2 initial size s).Size = min size 512) ∧
    ((LPF_Init3 initial size s).x = s.x ∧ (LPF_Init3 initial size s).I1 = s.I1 ∧
      (LPF_Init3 initial size s).LPFSum = s.LPFSum ∧
      (LPF_Init3 initial size s).x2 = s.x2 ∧
      (LPF_Init3 initial size s).Pt2 = s.Pt2 ∧
      (LPF_Init3 initial size s).LPFSum2 = s.LPFSum2 ∧
      (LPF_Init3 initial size s).Size = min size 512) ∧
    ((LPF_Init initial size s).x2 = s.x2 ∧ (LPF_Init initial size s).Pt2 = s.Pt2 ∧
      (LPF_Init initial size s).LPFSum2 = s.LPFSum2 ∧
      (LPF_Init initial size s).x3 = s.x3 ∧
      (LPF_Init initial size s).Pt3 = s.Pt3 ∧
      (LPF_Init initial size s).LPFSum3 = s.LPFSum3 ∧
      (LPF_Init initial size s).Size = min size 1024) := by
  intro v initial size s
  refine ⟨⟨rfl, rfl, rfl, rfl, rfl, rfl, rfl⟩, ⟨rfl, rfl, rfl, rfl, rfl, rfl, rfl⟩,
    ⟨rfl, rfl, rfl, rfl, rfl, rfl, rfl⟩, ⟨rfl, rfl, rfl, rfl, rfl, rfl, ?_⟩,
    ⟨rfl, rfl, rfl, rfl, rfl, rfl, ?_⟩, ⟨rfl, rfl, rfl, rfl, rfl, rfl, ?_⟩⟩
  · show (if size > 512 then 512 else size) = min size 512
    split_ifs <;> omega
  · show (if size > 512 then 512 else size) = min size 512
    split_ifs <;> omega
  · show (if size > 1024 then 1024 else size) = min size 1024
    split_ifs <;> omega

/-! ### C9: the Newton integer square root (amended) -/

lemma sqrt_le_bab (s t : ℕ) (ht : 1 ≤ t) : Nat.sqrt s ≤ bab s t := by
  unfold bab
  rw [Nat.le_div_iff_mul_le (by omega : 0 < 2)]
  have hle : Nat.sqrt s * Nat.sqrt s ≤ s := Nat.sqrt_le s
  have hq : Nat.sqrt s * Nat.sqrt s / t ≤ s / t := Nat.div_le_div_right hle
  suffices h2 : Nat.sqrt s * 2 ≤ t + Nat.sqrt s * Nat.sqrt s / t by omega
  set a := Nat.sqrt s
  set q := a * a / t with hqdef
  have hdm : t * q + a * a % t = a * a := Nat.div_add_mod (a * a) t
  have hr : a * a % t < t := Nat.mod_lt _ (by omega)
  have hsq0 := two_mul_le_add_sq t a
  have e1 : t ^ 2 = t * t := pow_two t
  have e2 : a ^ 2 = a * a := pow_two a
  have hsq : 2 * (t * a) ≤ t * t + a * a := by linarith
  have hexp : t * (t + q + 1) = t * t + t * q + t := by ring
  have hexp2 : t * (2 * a) = 2 * (t * a) := by ring
  have hq2 : t * (2 * a) < t * (t + q + 1) := by omega
  have hcan := Nat.lt_of_mul_lt_mul_left hq2
  omega

lemma nat_lt_succ_sqrt_expanded (s : ℕ) :
    s ≤ Nat.sqrt s * Nat.sqrt s + 2 * Nat.sqrt s := by
  have hlt := Nat.lt_succ_sqrt s
  rw [Nat.succ_eq_add_one] at hlt
  have he : (Nat.sqrt s + 1) * (Nat.sqrt s + 1) =
      Nat.sqrt s * Nat.sqrt s + 2 * Nat.sqrt s + 1 := by ring
  omega

lemma bab_sqrt_le (s : ℕ) (hs : 1 ≤ Nat.sqrt s) :
    bab s (Nat.sqrt s) ≤ Nat.sqrt s + 1 := by
  set a := Nat.sqrt s
  have hs_le : s ≤ a * a + 2 * a := nat_lt_succ_sqrt_expanded s
  have hdiv : s / a ≤ a + 2 := by
    have he : a * a + 2 * a = a * (a + 2) := by ring
    calc s / a ≤ (a * (a + 2)) / a := Nat.div_le_div_right (by omega)
    _ = a + 2 := Nat.mul_div_cancel_left _ (by omega)
  unfold bab
  calc (a + s / a) / 2 ≤ (2 * (a + 1)) / 2 := Nat.div_le_div_right (by omega)
  _ = a + 1 := Nat.mul_div_cancel_left _ (by omega)

lemma bab_le_of_gt (s t : ℕ) (ht : Nat.sqrt s + 1 ≤ t) :
    bab s t ≤ Nat.sqrt s + (t - Nat.sqrt s) / 2 := by
  set a := Nat.sqrt s
  have hs_le : s ≤ a * a + 2 * a := nat_lt_succ_sqrt_expanded s
  have hdiv : s / t ≤ a := by
    have h1 : s / t ≤ s / (a + 1) := Nat.div_le_div_left ht (by omega)
    have h2 : s / (a + 1) < a + 1 := by
      rw [Nat.div_lt_iff_lt_mul (by omega)]
      have he : (a + 1) * (a + 1) = a * a + 2 * a + 1 := by ring
      omega
    omega
  unfold bab
  calc (t + s / t) / 2 ≤ (t + a) / 2 := Nat.div_le_div_right (by omega)
  _ = a + (t - a) / 2 := by omega

lemma isqrt_step_eq_bab (s t : ℕ) (ht : 1 ≤ t) (hov : t * t + s < U32) :
    isqrt_step s t = some (bab s t) := by
  unfold isqrt_step bab
  rw [if_neg (by omega)]
  rw [Nat.mod_eq_of_lt hov]
  have he : t * t + s = s + t * t := by ring
  rw [he, Nat.add_mul_div_right s t ht, Nat.add_comm (s / t) t]

lemma isqrt_loop_succ (n s t : ℕ) :
    isqrt_loop (n + 1) s t =
      match isqrt_step s t with
      | none => none
      | some t1 => isqrt_loop n s t1 := rfl

lemma isqrt_loop_close (s : ℕ) (hs1 : 1 ≤ s) (hs2 : s ≤ 655309) :
    ∀ n t : ℕ, Nat.sqrt s ≤ t → t ≤ 32770 → t - Nat.sqrt s ≤ 2 ^ n →
      ∃ r, isqrt_loop n s t = some r ∧ Nat.sqrt s ≤ r ∧ r ≤ Nat.sqrt s + 1 := by
  have ha1 : 1 ≤ Nat.sqrt s := Nat.le_sqrt.mpr (by omega)
  have ha809 : Nat.sqrt s ≤ 809 := by
    have h810 := Nat.sqrt_lt.mpr (show s < 810 * 810 by omega)
    omega
  intro n
  induction n with
  | zero =>
    intro t h1 h2 h3
    exact ⟨t, rfl, h1, by omega⟩
  | succ n ih =>
    intro t h1 h2 h3
    have ht1 : 1 ≤ t := by omega
    have hov : t * t + s < U32 := by
      have hm : t * t ≤ 32770 * 32770 := Nat.mul_le_mul h2 h2
      unfold U32
      omega
    have hstep := isqrt_step_eq_bab s t ht1 hov
    have hge : Nat.sqrt s ≤ bab s t := sqrt_le_bab s t ht1
    have hupper : bab s t ≤ 32770 := by
      by_cases hcase : Nat.sqrt s + 1 ≤ t
      · have hb := bab_le_of_gt s t hcase
        omega
      · have hteq : t = Nat.sqrt s := by omega
        have hb := bab_sqrt_le s ha1
        rw [hteq]
        omega
    have herr : bab s t - Nat.sqrt s ≤ 2 ^ n := by
      have h2n : (2 : ℕ) ^ (n + 1) = 2 ^ n * 2 := pow_succ 2 n
      by_cases hcase : Nat.sqrt s + 1 ≤ t
      · have hb := bab_le_of_gt s t hcase
        omega
      · have hteq : t = Nat.sqrt s := by omega
        have hb := bab_sqrt_le s ha1
        have hpos := Nat.two_pow_pos n
        rw [hteq]
        omega
    obtain ⟨r, hr, h5, h6⟩ := ih (bab s t) hge hupper herr
    refine ⟨r, ?_, h5, h6⟩
    rw [isqrt_loop_succ, hstep]
    exact hr

/-- C9 counterexample.  `isqrt 0` divides by zero on its second loop
iteration (the guess reaches 0), and at `s = 2^31` the `uint32_t` overflow
of `t*t + s` makes the result 214748367, while the true integer square root
is 46340 — far more than 1 away.  The claim fails on the full 32-bit
domain. -/
theorem C9_isqrt_div_zero_and_wrong :
    isqrt 0 = none ∧
    isqrt 2147483648 = some 214748367 ∧
    Nat.sqrt 2147483648 = 46340 ∧
    46340 + 1 < 214748367 := by
  refine ⟨by decide, by decide, ?_, by decide⟩
  have h1 : 46340 ≤ Nat.sqrt 2147483648 := Nat.le_sqrt.mpr (by norm_num)
  have h2 : Nat.sqrt 2147483648 < 46341 := Nat.sqrt_lt.mpr (by norm_num)
  omega

/-- C9 amended.  On the overflow-free domain `1 ≤ s ≤ 655309` (for larger
`s` the first iteration's `t*t + s` can wrap modulo 2^32, and at `s = 0`
the loop divides by zero), `isqrt` completes its 16 iterations with no
division by zero and returns a value within 1 of the true integer square
root `Nat.sqrt s`. -/
theorem C9_isqrt_close_on_safe_domain :
    ∀ s : ℕ, 1 ≤ s → s ≤ 655309 →
      ∃ r, isqrt s = some r ∧ Nat.sqrt s ≤ r + 1 ∧ r ≤ Nat.sqrt s + 1 := by
  intro s hs1 hs2
  set t0 := s / 10 + 1 with ht0
  have ht0ge1 : 1 ≤ t0 := by omega
  have ht0le : t0 ≤ 65531 := by omega
  have hov0 : t0 * t0 + s < U32 := by
    have hm : t0 * t0 ≤ 65531 * 65531 := Nat.mul_le_mul ht0le ht0le
    unfold U32
    omega
  have hstep0 := isqrt_step_eq_bab s t0 ht0ge1 hov0
  have hdivt0 : s / t0 ≤ 9 := by
    have h10 : s < 10 * t0 := by omega
    have h9 : s / t0 < 10 := by
      rw [Nat.div_lt_iff_lt_mul (by omega)]
      omega
    omega
  have ht1le : bab s t0 ≤ 32770 := by
    unfold bab
    calc (t0 + s / t0) / 2 ≤ (65531 + 9) / 2 := Nat.div_le_div_right (by omega)
    _ = 32770 := by norm_num
  have ht1ge : Nat.sqrt s ≤ bab s t0 := sqrt_le_bab s t0 ht0ge1
  have herr1 : bab s t0 - Nat.sqrt s ≤ 2 ^ 15 := by
    have h2p : (2 : ℕ) ^ 15 = 32768 := by norm_num
    by_cases hsmall : s ≤ 3
    · have ht0eq : t0 = 1 := by omega
      have hb : bab s t0 ≤ 2 := by
        unfold bab
        rw [ht0eq]
        omega
      have ha1 : 1 ≤ Nat.sqrt s := Nat.le_sqrt.mpr (by omega)
      omega
    · have ha2 : 2 ≤ Nat.sqrt s := Nat.le_sqrt.mpr (by omega)
      omega
  obtain ⟨r, hloop, hlow, hhigh⟩ :=
    isqrt_loop_close s hs1 hs2 15 (bab s t0) ht1ge ht1le herr1
  refine ⟨r, ?_, by omega, hhigh⟩
  have hfinal : isqrt s = isqrt_loop 15 s (bab s t0) := by
    unfold isqrt
    rw [← ht0, show (16 : ℕ) = 15 + 1 by norm_num, isqrt_loop_succ, hstep0]
  rw [hfinal]
  exact hloop

/-- C9 witness: at `s = 655309` (the top of the safe domain) the loop
completes and the result is within 1 of the true root. -/
theorem C9_isqrt_close_on_safe_domain_witness :
    ∃ r, isqrt 655309 = some r ∧
      Nat.sqrt 655309 ≤ r + 1 ∧ r ≤ Nat.sqrt 655309 + 1 :=
  C9_isqrt_close_on_safe_domain 655309 (by decide) (by decide)
